import Mathlib

/-!
Verification of the bootstrap and lifecycle layer of pegnetd
(`src/cmd/root.go`): configuration precedence, logger
threshold selection, the exit coordinator, the bootstrap ordering of the
`always` hook, and the exit-code behaviour of the primary and auxiliary
run paths. Go functions are shallowly embedded as Lean functions; the
side-effecting control flow of `rootCmd.Run`, `always`, `ReadConfig` and
`SoftReadConfig` is embedded as the finite trace of observable events each
execution emits.
-/

/-- The logrus severity levels used by the daemon, ordered as in logrus. -/
inductive LogLevel
  | trace
  | debug
  | info
  | warn
  | error
  | fatal
  deriving DecidableEq

/-- Embeds `initLogger` from `src/cmd/root.go`: a switch on
`strings.ToLower` of the configured level name that sets the process-wide
threshold for the six recognized names and leaves it unchanged otherwise.
The current process-wide threshold is passed in and the resulting
threshold returned. -/
def initLogger (configured : String) (current : LogLevel) : LogLevel :=
  match configured.toLower with
  | "trace" => LogLevel.trace
  | "debug" => LogLevel.debug
  | "info" => LogLevel.info
  | "warn" => LogLevel.warn
  | "error" => LogLevel.error
  | "fatal" => LogLevel.fatal
  | _ => current

/-- The fixed enumerated set of recognized level names and the threshold
each one maps to, written out as the spec states it. -/
def levelTable : List (String × LogLevel) :=
  [("trace", LogLevel.trace), ("debug", LogLevel.debug),
   ("info", LogLevel.info), ("warn", LogLevel.warn),
   ("error", LogLevel.error), ("fatal", LogLevel.fatal)]

/-- A value seeded as a configuration default: a Go `time.Duration` in
nanoseconds or a string. -/
inductive ConfigValue
  | dur (ns : Nat)
  | str (s : String)
  deriving DecidableEq

/-- One nanosecond count per Go `time.Second`. -/
def goSecond : Nat := 1000000000

/-- Observable events emitted by the command hooks in `src/cmd/root.go`,
in the order the Go statements execute them. `addCancel` is the
registration `exit.GlobalExitHandler.AddCancel(cancel)`; `invokeCancel`
stands for an actual invocation of a registered cancel callback;
`closeExitHandler` is a call to `exit.GlobalExitHandler.Close()`. -/
inductive Event
  | addCancel
  | invokeCancel
  | closeExitHandler
  | logInfo (msg : String)
  | logDebug (msg : String)
  | logError (msg : String)
  | osExit (code : Nat)
  | startAPIServer
  | dblockSync
  | testingOverrides
  | setConfigName (name : String)
  | addConfigPath (path : String)
  | bindFlag (key flag : String)
  | setDefault (key : String) (val : ConfigValue)
  | installInterruptListener
  | initLoggerCall
  deriving DecidableEq

/-- `occursBefore tr a b` holds when some occurrence of `a` in `tr`
strictly precedes some occurrence of `b` (checked from the first
occurrence of `a`, which suffices). -/
def occursBefore (tr : List Event) (a b : Event) : Bool :=
  match tr with
  | [] => false
  | e :: rest => if e = a then rest.contains b else occursBefore rest a b

/-- True exactly on `osExit` events. -/
def isExitEvent : Event → Bool
  | .osExit _ => true
  | _ => false

/-- Embeds the `Run` field of `rootCmd` in `src/cmd/root.go`. The context
and cancel function are created, the cancel function is registered with
the global exit handler, then `node.NewPegnetd` is attempted: on failure
the error is logged and the process exits 1; on success the API server is
started as a goroutine and `DBlockSync` runs on the calling path.
`nodeOk` abstracts whether `node.NewPegnetd` returned a nil error. -/
def runTrace (nodeOk : Bool) : List Event :=
  Event.addCancel ::
    (if nodeOk then [Event.startAPIServer, Event.dblockSync]
     else [Event.logError "failed to launch pegnet node", Event.osExit 1])

/-- Embeds `ReadConfig` from `src/cmd/root.go`: `viper.ReadInConfig`
failure is logged as an error and the process exits 1; on success
`initLogger` is called. `configOk` abstracts whether the config file
loaded. -/
def readConfigTrace (configOk : Bool) : List Event :=
  if configOk then [Event.initLoggerCall]
  else [Event.logError "failed to load config", Event.osExit 1]

/-- Embeds `SoftReadConfig` from `src/cmd/root.go`: a load failure is
logged at debug level only, and `initLogger` runs unconditionally. -/
def softReadConfigTrace (configOk : Bool) : List Event :=
  (if configOk then [] else [Event.logDebug "failed to load config"]) ++
    [Event.initLoggerCall]

/-- The primary run path: cobra runs `ReadConfig` (the `PreRun` hook) and
then, when it did not exit, the `Run` body. An `osExit` event terminates
the process, so nothing follows the failing `readConfigTrace`. -/
def primaryTrace (configOk nodeOk : Bool) : List Event :=
  readConfigTrace configOk ++ (if configOk then runTrace nodeOk else [])

/-- Embeds the body of the interrupt-listener goroutine installed by
`always` in `src/cmd/root.go`: on an OS interrupt it logs, closes the
global exit handler, logs again and unconditionally exits 0. -/
def interruptHandlerTrace : List Event :=
  [Event.logInfo "Gracefully closing", Event.closeExitHandler,
   Event.logInfo "closing application", Event.osExit 0]

/-- Embeds the statement order of the `always` hook in `src/cmd/root.go`
as the trace of its observable events, given the effective boolean of the
testing-flag lookup: testing-mode overrides first (when set), then config
name and search paths, then the five flag bindings, then the two seeded
defaults, then the interrupt listener installation. Keys of the `config`
package are identified by their constant names. -/
def alwaysTrace (testing : Bool) : List Event :=
  (if testing then
    [Event.logInfo "in testing mode, activation heights are 0",
     Event.testingOverrides]
   else []) ++
  [Event.setConfigName "pegnetd-conf",
   Event.addConfigPath "$HOME/.pegnetd",
   Event.addConfigPath ".",
   Event.bindFlag "LoggingLevel" "log",
   Event.bindFlag "Server" "server",
   Event.bindFlag "Wallet" "wallet",
   Event.bindFlag "Pegnetd" "pegnetd",
   Event.bindFlag "APIListen" "api",
   Event.setDefault "DBlockSyncRetryPeriod" (ConfigValue.dur (5 * goSecond)),
   Event.setDefault "SqliteDBPath" (ConfigValue.str "$HOME/.pegnetd/mainnet/sql.db"),
   Event.installInterruptListener]

/-- The exit status of an execution whose event trace is given: the code
of the first `osExit` event, or 0 when the path runs to completion and
the process terminates normally. -/
def exitCodeOfTrace : List Event → Nat
  | [] => 0
  | Event.osExit c :: _ => c
  | _ :: rest => exitCodeOfTrace rest

/-- Modelled from the spec: the result of pflag `GetBool` (the flag
library is not under `src/`) as used at `if ok, _ := cmd.Flags().GetBool("testing")`.
On a failed lookup pflag returns the zero value `false` together with a
non-nil error; the call site discards the error, so the effective boolean
is the value component alone. -/
def goGetBool (r : Except String Bool) : Bool :=
  match r with
  | Except.ok b => b
  | Except.error _ => false

/-- The two networks whose entries `always` overrides in
`common.ActivationHeights` and `common.GradingHeights`:
`common.MainNetwork` and `common.TestNetwork`. -/
inductive Network
  | main
  | test
  deriving DecidableEq

/-- The activation parameters mutated by the testing-mode branch of
`always`: `node.PegnetActivation`, `node.GradingV2Activation`, and the
per-network maps `common.ActivationHeights` (heights, int64) and
`common.GradingHeights` (grading-version functions, int64 to uint8). -/
structure ActivationParams where
  pegnetActivation : Nat
  gradingV2Activation : Nat
  activationHeights : Network → Int
  gradingHeights : Network → Int → Nat

/-- Pointwise update of a per-network map, embedding a Go map
assignment. -/
def updateNet {α : Type} (m : Network → α) (n : Network) (v : α) : Network → α :=
  fun x => if x = n then v else m x

/-- Embeds the body of the testing branch of `always` in
`src/cmd/root.go`: both activation fields are set to 0, the activation
heights of the main and test networks are set to 0, and the grading
height functions of both networks are replaced by the constant function
returning 2. -/
def applyTestingOverrides (p : ActivationParams) : ActivationParams :=
  { pegnetActivation := 0,
    gradingV2Activation := 0,
    activationHeights :=
      updateNet (updateNet p.activationHeights Network.main 0) Network.test 0,
    gradingHeights :=
      updateNet (updateNet p.gradingHeights Network.main (fun _ => 2))
        Network.test (fun _ => 2) }

/-- Embeds the effect of `always` on the activation parameters, given the
result of the testing-flag lookup: the overrides are applied exactly when
the effective boolean of the lookup is true. -/
def alwaysParams (r : Except String Bool) (p : ActivationParams) : ActivationParams :=
  if goGetBool r then applyTestingOverrides p else p

/-- Modelled from the spec: the exit package's handler
(`github.com/pegnet/pegnetd/exit`, referenced from `src/cmd/root.go` as
`exit.GlobalExitHandler` but not itself under `src/`). It owns an ordered
collection of cancellation callbacks (identified here by numbers) and a
closed flag; `invoked` instruments the model by recording, in order,
every callback invocation performed so far. -/
structure ExitHandler where
  cancels : List Nat
  closed : Bool
  invoked : List Nat
  deriving DecidableEq

/-- Modelled from the spec: `AddCancel` appends a cancellation callback
to the registry. -/
def ExitHandler.addCancel (h : ExitHandler) (c : Nat) : ExitHandler :=
  { h with cancels := h.cancels ++ [c] }

/-- Modelled from the spec: `Close` invokes every registered callback at
most once total and marks the handler closed; a second `Close` is a
no-op, and a callback registered after `Close` has begun is
deterministically skipped. -/
def ExitHandler.close (h : ExitHandler) : ExitHandler :=
  if h.closed then h
  else { h with closed := true, invoked := h.invoked ++ h.cancels }

/-- One operation of a client of the exit handler. -/
inductive ExitOp
  | add (c : Nat)
  | close
  deriving DecidableEq

/-- Runs a sequence of operations against an exit handler state. -/
def ExitHandler.runOps : ExitHandler → List ExitOp → ExitHandler
  | h, [] => h
  | h, ExitOp.add c :: rest => (h.addCancel c).runOps rest
  | h, ExitOp.close :: rest => h.close.runOps rest

/-- The handler as created at process start: no callbacks, not closed,
nothing invoked. -/
def initHandler : ExitHandler := ⟨[], false, []⟩

/-- The callbacks registered strictly before the first `close` of an
operation sequence, in registration order. -/
def addsBeforeFirstClose : List ExitOp → List Nat
  | [] => []
  | ExitOp.close :: _ => []
  | ExitOp.add c :: rest => c :: addsBeforeFirstClose rest

/-- Modelled from the spec: the ConfigurationStore (viper, not under
`src/`) merging three precedence tiers for a key bound to a flag by
`BindPFlag` in `always`: the flag's value when the flag was explicitly
set by the user, else the config file's value, else the seeded default.
`flagBound` maps a key to the pair of whether its bound flag was
explicitly set and the flag's value; `fileVals` holds the config file's
keys; `defaults` holds the values seeded with `SetDefault`. -/
structure ConfigStore (V : Type) where
  flagBound : List (String × Bool × V)
  fileVals : List (String × V)
  defaults : List (String × V)

/-- Modelled from the spec: the typed lookup of the ConfigurationStore —
an explicitly set bound flag wins, otherwise the file value, otherwise
the seeded default. -/
def ConfigStore.get {V : Type} (s : ConfigStore V) (key : String) : Option V :=
  match s.flagBound.lookup key with
  | some (true, v) => some v
  | _ =>
    match s.fileVals.lookup key with
    | some v => some v
    | none => s.defaults.lookup key

/-- Claim C4: for every configured name whose case-insensitive form is in
the fixed set, `initLogger` sets exactly the matching level, and for every
name outside the set the previous threshold is left unchanged (the
function is total, so no error is raised): `initLogger` agrees everywhere
with a lookup in the enumerated table, defaulting to the current level. -/
theorem initLogger_matches_level_table (s : String) (l : LogLevel) :
    initLogger s l = ((levelTable.lookup s.toLower).getD l) := by
  unfold initLogger levelTable
  split <;>
    first
      | (simp_all [List.lookup]; done)
      | (rename_i h1 h2 h3 h4 h5 h6
         simp [List.lookup, beq_eq_false_iff_ne.mpr h1, beq_eq_false_iff_ne.mpr h2,
               beq_eq_false_iff_ne.mpr h3, beq_eq_false_iff_ne.mpr h4,
               beq_eq_false_iff_ne.mpr h5, beq_eq_false_iff_ne.mpr h6])

/-- Claim C1: in every execution of `Run`, the root cancel function is
registered with the exit coordinator before the API server task is
started: registration is the very first event of both executions of the
body, so it precedes `startAPIServer` in the successful execution, and in
the failing execution the API server is never started at all. -/
theorem run_registers_cancel_before_api_server :
    occursBefore (runTrace true) Event.addCancel Event.startAPIServer = true ∧
    (∀ nodeOk : Bool, (runTrace nodeOk).head? = some Event.addCancel) ∧
    Event.startAPIServer ∉ runTrace false := by decide

/-- Claim C3: the exit status of the primary run path is 1 exactly when
the config file fails to load or synchronizer construction fails, 0 when
both succeed and the path runs to completion, and 0 on an
interrupt-forced shutdown; in both failure cases the error is logged
before the exit. -/
theorem primary_path_exit_codes :
    (∀ configOk nodeOk : Bool,
      exitCodeOfTrace (primaryTrace configOk nodeOk) =
        if configOk && nodeOk then 0 else 1) ∧
    exitCodeOfTrace interruptHandlerTrace = 0 ∧
    (∀ nodeOk : Bool,
      occursBefore (primaryTrace false nodeOk)
        (Event.logError "failed to load config") (Event.osExit 1) = true) ∧
    occursBefore (primaryTrace true false)
      (Event.logError "failed to launch pegnet node") (Event.osExit 1) = true := by
  decide

/-- Claim C6: the `always` bootstrap hook performs its steps strictly in
order: testing-mode overrides (exactly when the testing flag is set)
before any config setup, then config name and search paths
(home-directory path before the current directory), then the flag
bindings, then the seeded defaults (five-second sync-retry period and the
home-directory database path), and the interrupt listener — whose body
closes the exit handler and then unconditionally exits — installed last. -/
theorem always_bootstrap_order :
    (Event.testingOverrides ∈ alwaysTrace true ∧
     Event.testingOverrides ∉ alwaysTrace false) ∧
    occursBefore (alwaysTrace true) Event.testingOverrides
      (Event.setConfigName "pegnetd-conf") = true ∧
    (∀ t : Bool,
      occursBefore (alwaysTrace t) (Event.setConfigName "pegnetd-conf")
        (Event.addConfigPath "$HOME/.pegnetd") = true ∧
      occursBefore (alwaysTrace t) (Event.addConfigPath "$HOME/.pegnetd")
        (Event.addConfigPath ".") = true ∧
      occursBefore (alwaysTrace t) (Event.addConfigPath ".")
        (Event.bindFlag "LoggingLevel" "log") = true ∧
      occursBefore (alwaysTrace t) (Event.bindFlag "APIListen" "api")
        (Event.setDefault "DBlockSyncRetryPeriod"
          (ConfigValue.dur (5 * goSecond))) = true ∧
      occursBefore (alwaysTrace t)
        (Event.setDefault "DBlockSyncRetryPeriod" (ConfigValue.dur (5 * goSecond)))
        (Event.setDefault "SqliteDBPath"
          (ConfigValue.str "$HOME/.pegnetd/mainnet/sql.db")) = true ∧
      (alwaysTrace t).getLast? = some Event.installInterruptListener) ∧
    occursBefore interruptHandlerTrace Event.closeExitHandler (Event.osExit 0) = true := by
  decide

/-- Claim C8: `SoftReadConfig` never terminates the process — its trace
contains no exit event for either outcome and the logger is always
initialized — and on a config-load failure it logs at debug level before
initializing the logger and returns normally. -/
theorem softReadConfig_never_exits :
    (∀ configOk : Bool,
      Event.initLoggerCall ∈ softReadConfigTrace configOk ∧
      (softReadConfigTrace configOk).all (fun e => !isExitEvent e) = true) ∧
    occursBefore (softReadConfigTrace false)
      (Event.logDebug "failed to load config") Event.initLoggerCall = true ∧
    Event.logDebug "failed to load config" ∉ softReadConfigTrace true := by decide

/-- Claim C9: when synchronizer construction fails, the `Run` body emits
exactly the registration of the cancel function, an error log, and the
exit with status 1 — it never calls `Close` on the exit handler and never
invokes a registered cancel callback. -/
theorem run_node_failure_skips_callbacks :
    runTrace false =
      [Event.addCancel, Event.logError "failed to launch pegnet node",
       Event.osExit 1] ∧
    Event.closeExitHandler ∉ runTrace false ∧
    Event.invokeCancel ∉ runTrace false := by decide

/-- Claim C7: with the testing flag set, `always` forces
`PegnetActivation` and `GradingV2Activation` to 0, the activation height
of both the main and the test network to 0, and the grading-height
function of both networks to the constant 2, for every starting value of
the parameters and every network selection and height. -/
theorem testing_overrides_trivialize_params (p : ActivationParams)
    (n : Network) (h : Int) :
    (alwaysParams (Except.ok true) p).pegnetActivation = 0 ∧
    (alwaysParams (Except.ok true) p).gradingV2Activation = 0 ∧
    (alwaysParams (Except.ok true) p).activationHeights n = 0 ∧
    (alwaysParams (Except.ok true) p).gradingHeights n h = 2 := by
  cases n <;> simp [alwaysParams, goGetBool, applyTestingOverrides, updateNet]

/-- Claim C10: an error from the testing-flag lookup is discarded and the
bootstrap behaves exactly as if the flag were false — the parameters are
left untouched — and the overrides are applied only when the lookup
succeeds with value true. -/
theorem testing_flag_error_ignored (e : String) (p : ActivationParams) :
    alwaysParams (Except.error e) p = p ∧
    alwaysParams (Except.ok false) p = p ∧
    alwaysParams (Except.ok true) p = applyTestingOverrides p := by
  exact ⟨rfl, rfl, rfl⟩

theorem runOps_closed_frozen (ops : List ExitOp) (h : ExitHandler)
    (hc : h.closed = true) :
    (h.runOps ops).invoked = h.invoked ∧ (h.runOps ops).closed = true := by
  induction ops generalizing h with
  | nil => exact ⟨rfl, hc⟩
  | cons op rest ih =>
    cases op with
    | add c =>
      simpa [ExitHandler.runOps, ExitHandler.addCancel] using
        ih (h.addCancel c) (by simpa [ExitHandler.addCancel] using hc)
    | close =>
      simpa [ExitHandler.runOps, ExitHandler.close, hc] using ih h hc

theorem runOps_open_invoked (ops : List ExitOp) (h : ExitHandler)
    (ho : h.closed = false) (hmem : ExitOp.close ∈ ops) :
    (h.runOps ops).invoked = h.invoked ++ h.cancels ++ addsBeforeFirstClose ops ∧
    (h.runOps ops).closed = true := by
  induction ops generalizing h with
  | nil => simp at hmem
  | cons op rest ih =>
    cases op with
    | add c =>
      have hm : ExitOp.close ∈ rest := by
        rcases List.mem_cons.mp hmem with habs | hr
        · exact absurd habs (by simp)
        · exact hr
      have := ih (h.addCancel c) (by simpa [ExitHandler.addCancel] using ho) hm
      simpa [ExitHandler.runOps, ExitHandler.addCancel, addsBeforeFirstClose,
             List.append_assoc] using this
    | close =>
      have hcl : h.close = { h with closed := true, invoked := h.invoked ++ h.cancels } := by
        simp [ExitHandler.close, ho]
      have := runOps_closed_frozen rest h.close (by simp [hcl])
      simpa [ExitHandler.runOps, hcl, addsBeforeFirstClose] using this

/-- Claim C2: for every operation sequence that closes the handler more
than once, the callbacks invoked over the whole run are exactly those
registered before the first `Close`, each exactly as often as it was
registered (so exactly once per registration), the handler ends closed,
and the later `Close` calls re-run nothing (the model is a total
function, so no invocation panics). -/
theorem exitHandler_multi_close_once (ops : List ExitOp)
    (hN : 1 < ops.count ExitOp.close) :
    (initHandler.runOps ops).invoked = addsBeforeFirstClose ops ∧
    (initHandler.runOps ops).closed = true ∧
    ∀ c : Nat, ((initHandler.runOps ops).invoked.count c =
      (addsBeforeFirstClose ops).count c) := by
  have hmem : ExitOp.close ∈ ops := List.count_pos_iff.mp (by omega)
  have h2 := runOps_open_invoked ops initHandler rfl hmem
  have h3 : (initHandler.runOps ops).invoked = addsBeforeFirstClose ops := by
    simpa [initHandler] using h2.1
  exact ⟨h3, h2.2, fun c => by rw [h3]⟩

/-- Witness for claim C2 at a concrete operation sequence with three
`Close` calls interleaved with registrations. -/
theorem exitHandler_multi_close_once_witness :
    1 < ([ExitOp.add 1, ExitOp.add 2, ExitOp.close, ExitOp.close,
          ExitOp.add 3, ExitOp.close].count ExitOp.close) ∧
    (initHandler.runOps
      [ExitOp.add 1, ExitOp.add 2, ExitOp.close, ExitOp.close,
       ExitOp.add 3, ExitOp.close]).invoked = [1, 2] := by
  refine ⟨by decide, ?_⟩
  have := exitHandler_multi_close_once
    [ExitOp.add 1, ExitOp.add 2, ExitOp.close, ExitOp.close,
     ExitOp.add 3, ExitOp.close] (by decide)
  exact this.1.trans (by decide)

/-- Claim C5: for a key bound to a flag, with a flag value, an optional
file value and a seeded default, the effective value of the typed lookup
is the flag's value when the flag was explicitly set, else the file's
value when present, else the default. -/
theorem config_lookup_precedence (V : Type) (flagSet : Bool) (fv : V)
    (fileV : Option V) (dv : V) :
    ConfigStore.get
      { flagBound := [("k", (flagSet, fv))],
        fileVals := match fileV with
          | some v => [("k", v)]
          | none => [],
        defaults := [("k", dv)] } "k" =
      some (if flagSet then fv else fileV.getD dv) := by
  cases flagSet <;> cases fileV <;> simp [ConfigStore.get, List.lookup]
